import Mathlib

/-!
Verification development for the claude-companion log-tailing, session-discovery
and event-normalization pipeline.

The definitions below are shallow embeddings of the TypeScript sources:
  * `OTelLogReader.ts` / `OTelMetricsReader.ts` (tailing reader: `openLog`,
    `readNewContent`; both files contain the identical reading logic),
  * `OtlpParser` (`parseOTLPLog`, `parseOTLPMetric`, `parseOTLPLogLine`,
    `parseOTLPMetricLine`, `extractValue`, `extractAttributes`, `nanoToDate`),
  * `OTelLogReader.transformToHookEvent`,
  * the generated hook script of `HookConfigGenerator.generateHookScript`
    (the jq transform that enriches and coalesces hook events),
  * `LogManager` / `SessionDiscovery` (`discoverSessions`, `watchForSessions`,
    `cleanupStaleLogs`, `isProcessAlive`),
  * the `App` session-switch state handling (`watchForSessions` callback,
    `switchToNewSession`, `ignoreNewSession`).

File contents are modeled as `List Char`; filesystem and process state are
modeled as explicit environment records; `Date` values are carried as their
millisecond count; JavaScript numbers are modeled as rationals.
-/

namespace ClaudeCompanion

/-! ## Tailing reader: line splitting

`content.split('\n')` from the reader sources, on `List Char`.
`splitLinesAux s` returns the first line of `s` together with the remaining
lines; `splitLines` packs them into the full list, so that
`splitLines [] = [[]]` just as `''.split('\n')` is `['']`. -/

def splitLinesAux : List Char → List Char × List (List Char)
  | [] => ([], [])
  | c :: rest =>
    if c = '\n' then ([], (splitLinesAux rest).1 :: (splitLinesAux rest).2)
    else (c :: (splitLinesAux rest).1, (splitLinesAux rest).2)

def splitLines (s : List Char) : List (List Char) :=
  (splitLinesAux s).1 :: (splitLinesAux s).2

/-- The reader keeps a split fragment iff `line.trim()` is truthy, i.e. the
line contains a character that is not whitespace
(`.filter(line => line.trim())` in both readers). -/
def keepLine (l : List Char) : Bool :=
  l.any (fun c => !c.isWhitespace)

/-- Lines a reader hands to `handleLine` for a chunk of raw bytes:
split on newline, keep the non-blank fragments. -/
def emitLines (s : List Char) : List (List Char) :=
  (splitLines s).filter keepLine

/-- One watch callback of `readNewContent` (identical in `OTelLogReader.ts`
and `OTelMetricsReader.ts`): re-stat the file; if the size grew, read exactly
the byte range `[cursor, newSize)`, split it into lines, emit the non-blank
ones and advance the cursor to the new size; otherwise do nothing.  The
transient-error catch of the source (file momentarily missing) is the
do-nothing branch of the pure model.  Returns (emitted lines, new cursor). -/
def readNewContent (content : List Char) (cursor : Nat) :
    List (List Char) × Nat :=
  if cursor < content.length then
    (emitLines (content.drop cursor), content.length)
  else
    ([], cursor)

/-- Run a sequence of appends against a tailed file, with one watch callback
after each append.  Returns (all emitted lines in order, final content,
final cursor). -/
def runAppends : List Char → Nat → List (List Char) →
    List (List Char) × List Char × Nat
  | content, cursor, [] => ([], content, cursor)
  | content, cursor, a :: rest =>
    let content2 := content ++ a
    let r := readNewContent content2 cursor
    let rr := runAppends content2 r.2 rest
    (r.1 ++ rr.1, rr.2.1, rr.2.2)

/-! ### Splitting lemmas -/

theorem splitLines_nil : splitLines [] = [[]] := rfl

theorem splitLines_cons_newline (s : List Char) :
    splitLines ('\n' :: s) = [] :: splitLines s := by
  simp [splitLines, splitLinesAux]

theorem splitLines_cons_other {c : Char} (hc : c ≠ '\n') (s : List Char)
    (l0 : List Char) (tail : List (List Char))
    (h : splitLines s = l0 :: tail) :
    splitLines (c :: s) = (c :: l0) :: tail := by
  have h1 : (splitLinesAux s).1 = l0 := by
    have := congrArg List.head? h
    simpa [splitLines] using this
  have h2 : (splitLinesAux s).2 = tail := by
    have := congrArg List.tail h
    simpa [splitLines] using this
  simp [splitLines, splitLinesAux, hc, h1, h2]

/-- Splitting a string that ends with a newline, optionally followed by more
bytes: there is a common list `L` of leading fragments such that the
newline-terminated prefix splits as `L ++ [[]]` and the full string splits
as `L ++ splitLines b`. -/
theorem splitLines_newline_append (a b : List Char) :
    ∃ l0 L, splitLines (a ++ ['\n']) = (l0 :: L) ++ [[]] ∧
      splitLines (a ++ '\n' :: b) = (l0 :: L) ++ splitLines b := by
  induction a with
  | nil =>
    refine ⟨[], [], ?_, ?_⟩
    · simp [splitLines_cons_newline, splitLines_nil]
    · simp [splitLines_cons_newline]
  | cons c rest ih =>
    obtain ⟨l0, L, h1, h2⟩ := ih
    by_cases hc : c = '\n'
    · subst hc
      refine ⟨[], l0 :: L, ?_, ?_⟩
      · simpa [splitLines_cons_newline] using congrArg (List.cons []) h1
      · simpa [splitLines_cons_newline] using congrArg (List.cons []) h2
    · refine ⟨c :: l0, L, ?_, ?_⟩
      · have := splitLines_cons_other hc (rest ++ ['\n']) l0
          (L ++ [[]]) (by simpa using h1)
        simpa using this
      · have := splitLines_cons_other hc (rest ++ '\n' :: b) l0
          (L ++ splitLines b) (by simpa using h2)
        simpa using this

theorem keepLine_nil : keepLine [] = false := rfl

/-- Emitting the delta of a newline-terminated append followed by later bytes
decomposes: the blank trailing fragment of the append contributes nothing. -/
theorem emitLines_newline_append (a b : List Char) :
    emitLines (a ++ '\n' :: b) = emitLines (a ++ ['\n']) ++ emitLines b := by
  obtain ⟨l0, L, h1, h2⟩ := splitLines_newline_append a b
  simp only [emitLines, h1, h2, List.cons_append, List.filter_append,
    List.filter_cons]
  split <;> simp [keepLine_nil]

/-- Core delta-read induction: starting with the cursor at the current file
size, a run of newline-terminated appends (one callback each) emits exactly
the non-blank lines of the concatenation of the appends, in order, and the
final cursor is the final file size. -/
theorem runAppends_spec (content : List Char) (appends : List (List Char))
    (h : ∀ a ∈ appends, ∃ b, a = b ++ ['\n']) :
    (runAppends content content.length appends).1 = emitLines appends.flatten ∧
      (runAppends content content.length appends).2.2 =
        content.length + appends.flatten.length := by
  induction appends generalizing content with
  | nil =>
    simp [runAppends, emitLines, splitLines_nil, keepLine_nil]
  | cons a rest ih =>
    obtain ⟨b, hb⟩ := h a (by simp)
    have hlen : content.length < (content ++ a).length := by
      simp [hb]
    have hread : readNewContent (content ++ a) content.length =
        (emitLines a, (content ++ a).length) := by
      simp [readNewContent, hlen, List.drop_left]
      intro ha
      rw [ha] at hb
      simp at hb
    have ihr := ih (content ++ a) (fun x hx => h x (by simp [hx]))
    simp only [List.length_append] at ihr
    have hjoin : emitLines (a ++ rest.flatten) =
        emitLines a ++ emitLines rest.flatten := by
      subst hb
      simpa using emitLines_newline_append b rest.flatten
    constructor
    · simp only [runAppends, hread]
      simp [ihr.1, hjoin]
    · simp only [runAppends, hread]
      simp only [List.length_append] at hread ⊢
      simp [ihr.2]
      omega

/-! ## Tailing reader: open -/

/-- Reader state of `OTelLogReader` / `OTelMetricsReader`: current path,
open flag, and cursor (`fileSize`). -/
structure ReaderState where
  logPath : Option String := none
  readerIsOpen : Bool := false
  fileSize : Nat := 0
deriving DecidableEq, Repr

/-- Observable output of `openLog`: lines handed to `handleLine`, and the
terminating `this.emit('open')` signal. -/
inductive ReaderOut where
  | line (l : List Char)
  | openSignal
deriving DecidableEq, Repr

/-- Result of a call to `openLog`: the reader state afterwards, the emitted
outputs in order, and whether the call threw. -/
structure OpenResult where
  state : ReaderState
  out : List ReaderOut
  threw : Bool
deriving DecidableEq, Repr

/-- `openLog` of both readers: throw if already open (before touching any
state); otherwise record the path and open flag, and if the file exists
capture its size as the cursor and synchronously hand every non-blank
existing line to `handleLine`, then emit `'open'`.  `file` is the current
file content (`none` when the file does not exist). -/
def openLog (st : ReaderState) (path : String) (file : Option (List Char)) :
    OpenResult :=
  if st.readerIsOpen then
    { state := st, out := [], threw := true }
  else
    match file with
    | some content =>
      { state := { logPath := some path, readerIsOpen := true,
                   fileSize := content.length }
        out := (emitLines content).map ReaderOut.line ++ [ReaderOut.openSignal]
        threw := false }
    | none =>
      { state := { logPath := some path, readerIsOpen := true,
                   fileSize := st.fileSize }
        out := [ReaderOut.openSignal]
        threw := false }

/-- C1: for every sequence of appends to a tailed file in which each append
ends with a newline, with a change callback after each append, each non-empty
line (non-blank, per the source filter `line.trim()`) is emitted exactly once
and in byte order — the emitted lines are exactly the kept lines of the
concatenated appends; a callback that observes no size growth (zero growth or
shrunken size) emits nothing and leaves the cursor unchanged; after a
callback that observes growth the cursor equals the new file size. -/
theorem claim1_delta_read (content0 : List Char) (appends : List (List Char))
    (hnl : ∀ a ∈ appends, ∃ b, a = b ++ ['\n'])
    (content : List Char) (cursor : Nat) :
    ((runAppends content0 content0.length appends).1 =
        emitLines appends.flatten ∧
      (runAppends content0 content0.length appends).2.2 =
        content0.length + appends.flatten.length) ∧
    (content.length ≤ cursor → readNewContent content cursor = ([], cursor)) ∧
    (cursor < content.length →
      (readNewContent content cursor).2 = content.length) := by
  refine ⟨runAppends_spec content0 appends hnl, ?_, ?_⟩
  · intro h
    simp [readNewContent, Nat.not_lt.2 h]
  · intro h
    simp [readNewContent, h]

/-- Witness for C1 at a concrete run: one byte of pre-existing content, two
newline-terminated appends, and a stale-cursor callback. -/
theorem claim1_delta_read_witness :
    (∀ a ∈ [['b', '\n'], ['c', 'd', '\n']], ∃ c, a = c ++ ['\n']) ∧
    (((runAppends ['a'] ['a'].length [['b', '\n'], ['c', 'd', '\n']]).1 =
        emitLines [['b', '\n'], ['c', 'd', '\n']].flatten ∧
      (runAppends ['a'] ['a'].length [['b', '\n'], ['c', 'd', '\n']]).2.2 =
        ['a'].length + [['b', '\n'], ['c', 'd', '\n']].flatten.length) ∧
    (['x', 'y'].length ≤ 5 → readNewContent ['x', 'y'] 5 = ([], 5)) ∧
    (5 < ['x', 'y'].length → (readNewContent ['x', 'y'] 5).2 = ['x', 'y'].length)) := by
  have hnl : ∀ a ∈ [['b', '\n'], ['c', 'd', '\n']], ∃ c, a = c ++ ['\n'] := by
    intro a ha
    simp only [List.mem_cons, List.not_mem_nil, or_false] at ha
    rcases ha with h | h
    · exact ⟨['b'], by simp [h]⟩
    · exact ⟨['c', 'd'], by simp [h]⟩
  exact ⟨hnl, claim1_delta_read ['a'] [['b', '\n'], ['c', 'd', '\n']] hnl
    ['x', 'y'] 5⟩

/-- C2: `openLog` while the reader is already open throws before touching any
state; `openLog` while closed on an existing file sets the cursor to the
current file size and synchronously delivers every non-blank existing line,
in order, before the open signal is emitted. -/
theorem claim2_open_contract (st : ReaderState) (path : String)
    (file : Option (List Char)) :
    (st.readerIsOpen = true →
      openLog st path file = { state := st, out := [], threw := true }) ∧
    (st.readerIsOpen = false → ∀ content, file = some content →
      openLog st path file =
        { state := { logPath := some path, readerIsOpen := true,
                     fileSize := content.length }
          out := (emitLines content).map ReaderOut.line ++
            [ReaderOut.openSignal]
          threw := false }) := by
  constructor
  · intro h
    simp [openLog, h]
  · intro h content hc
    simp [openLog, h, hc]

/-- Witness for C2: a fresh reader opened on a two-line file, and an
already-open reader rejecting a second open. -/
theorem claim2_open_contract_witness :
    openLog { } "p" (some ['a', '\n', 'b', '\n']) =
      { state := { logPath := some "p", readerIsOpen := true, fileSize := 4 }
        out := [ReaderOut.line ['a'], ReaderOut.line ['b'],
          ReaderOut.openSignal]
        threw := false } ∧
    openLog { readerIsOpen := true } "p" (some ['a', '\n']) =
      { state := { readerIsOpen := true }, out := [], threw := true } := by
  constructor
  · have h := (claim2_open_contract { } "p"
      (some ['a', '\n', 'b', '\n'])).2 rfl ['a', '\n', 'b', '\n'] rfl
    rw [h]
    decide
  · exact (claim2_open_contract { readerIsOpen := true } "p"
      (some ['a', '\n'])).1 rfl

/-! ## OTLP parser (`OtlpParser`)

JavaScript numbers are modeled as rationals; a `Date` is carried as its
millisecond count. -/

/-- A simple attribute value: the `string | number | boolean` leaves that
`extractAttributes` keeps. -/
inductive SimpleVal where
  | s (v : String)
  | n (v : ℚ)
  | b (v : Bool)
deriving DecidableEq, Repr

/-- OTLP attribute value (`OTLPValue` of the source): optional
`stringValue` / `intValue` / `doubleValue` / `boolValue` / `arrayValue` /
`kvlistValue` fields. -/
inductive OTLPValue where
  | mk (stringValue : Option String) (intValue : Option ℚ)
       (doubleValue : Option ℚ) (boolValue : Option Bool)
       (arrayValue : Option (List OTLPValue))
       (kvlistValue : Option (List (String × OTLPValue))) : OTLPValue

/-- Result type of `extractValue`: a simple leaf, a recursively extracted
array or key-value object, or `undefined`. -/
inductive Extracted where
  | simple (v : SimpleVal)
  | arr (vs : List Extracted)
  | obj (fs : List (String × Extracted))
  | undef

/-- `extractValue`: first defined field wins, in source order
(string, int, double, bool, array, kvlist), else `undefined`. -/
def extractValue : OTLPValue → Extracted
  | .mk sv iv dv bv av kv =>
    match sv with
    | some s => .simple (.s s)
    | none =>
      match iv with
      | some i => .simple (.n i)
      | none =>
        match dv with
        | some d => .simple (.n d)
        | none =>
          match bv with
          | some b => .simple (.b b)
          | none =>
            match av with
            | some vs => .arr (vs.attach.map fun x => extractValue x.1)
            | none =>
              match kv with
              | some kvs =>
                .obj (kvs.attach.map fun x => (x.1.1, extractValue x.1.2))
              | none => .undef
decreasing_by
  · have := List.sizeOf_lt_of_mem x.2
    cases x
    simp_all
    omega
  · have := List.sizeOf_lt_of_mem x.2
    cases x
    simp_all
    cases ‹String × OTLPValue›
    simp_all
    omega

/-- A flat attribute record (`Record<string, string | number | boolean>`). -/
abbrev Attrs := List (String × SimpleVal)

/-- JavaScript record assignment `result[key] = value`: overwrite an
existing binding in place, else append. -/
def recordSet (r : Attrs) (k : String) (v : SimpleVal) : Attrs :=
  if r.any (fun p => p.1 = k) then
    r.map (fun p => if p.1 = k then (k, v) else p)
  else r ++ [(k, v)]

/-- JavaScript record read `r[key]`. -/
def recordGet (r : Attrs) (k : String) : Option SimpleVal :=
  (r.find? (fun p => p.1 = k)).map (fun p => p.2)

/-- `extractAttributes`: flatten an OTLP attribute list, keeping only the
simple-typed extracted values. -/
def extractAttributes (attributes : List (String × OTLPValue)) : Attrs :=
  attributes.foldl (fun result attr =>
    match extractValue attr.2 with
    | .simple v => recordSet result attr.1 v
    | _ => result) []

/-- `nanoToDate`: BigInt division of a nanosecond timestamp by 1,000,000,
carried as the resulting millisecond count of the `Date`. -/
def nanoToMillis (nano : Nat) : Nat := nano / 1000000

/-- `OTLPResource`. -/
structure OTLPResource where
  attributes : List (String × OTLPValue)

/-- `OTLPLogRecord` (fields the parser reads). -/
structure OTLPLogRecord where
  timeUnixNano : Nat
  body : Option OTLPValue := none
  attributes : List (String × OTLPValue)

/-- `OTLPScopeLogs` (fields the parser reads). -/
structure OTLPScopeLogs where
  logRecords : List OTLPLogRecord

/-- `OTLPResourceLogs`. -/
structure OTLPResourceLogs where
  resource : OTLPResource
  scopeLogs : List OTLPScopeLogs

/-- `OTLPLogsPayload`. -/
structure OTLPLogsPayload where
  resourceLogs : List OTLPResourceLogs

/-- `ParsedOTelLog` (the TypeScript `as string | undefined` cast on
`sessionId` is a no-op at runtime, so the field carries whatever simple
value the resource attribute held). -/
structure ParsedOTelLog where
  timestamp : Nat
  eventName : String
  sessionId : Option SimpleVal
  resourceAttributes : Attrs
  logAttributes : Attrs
deriving DecidableEq, Repr

/-- `logRecord.body?.stringValue || 'unknown'` (an empty-string body is
falsy and also yields `'unknown'`). -/
def bodyEventName (body : Option OTLPValue) : String :=
  match body with
  | some v =>
    match v with
    | .mk sv _ _ _ _ _ =>
      match sv with
      | some s => if s = "" then "unknown" else s
      | none => "unknown"
  | none => "unknown"

/-- One parsed record, as built in the inner loop of `parseOTLPLog`. -/
def mkParsedLog (rl : OTLPResourceLogs) (r : OTLPLogRecord) : ParsedOTelLog :=
  let resourceAttributes := extractAttributes rl.resource.attributes
  { timestamp := nanoToMillis r.timeUnixNano
    eventName := bodyEventName r.body
    sessionId := recordGet resourceAttributes "session.id"
    resourceAttributes := resourceAttributes
    logAttributes := extractAttributes r.attributes }

/-- `parseOTLPLog`: traverse `resourceLogs[].scopeLogs[].logRecords[]`,
pushing one parsed record per log record. -/
def parseOTLPLog (p : OTLPLogsPayload) : List ParsedOTelLog :=
  p.resourceLogs.flatMap (fun rl =>
    rl.scopeLogs.flatMap (fun sl =>
      sl.logRecords.map (fun r => mkParsedLog rl r)))

/-- The log records of a payload, in traversal order, each paired with its
owning `resourceLogs` entry. -/
def flatLogRecords (p : OTLPLogsPayload) :
    List (OTLPResourceLogs × OTLPLogRecord) :=
  p.resourceLogs.flatMap (fun rl =>
    rl.scopeLogs.flatMap (fun sl =>
      sl.logRecords.map (fun r => (rl, r))))

/-- Total number of log records in a payload. -/
def totalLogRecords (p : OTLPLogsPayload) : Nat :=
  (p.resourceLogs.map (fun rl =>
    (rl.scopeLogs.map (fun sl => sl.logRecords.length)).sum)).sum

/-- `parseOTLPLogLine`: the whole body runs inside `try`, so a line whose
JSON decode or payload traversal fails (modeled as `none`) yields `[]`. -/
def parseOTLPLogLine (line : Option OTLPLogsPayload) : List ParsedOTelLog :=
  match line with
  | none => []
  | some p => parseOTLPLog p

/-- `OTLPDataPoint` (fields the parser reads). -/
structure OTLPDataPoint where
  attributes : List (String × OTLPValue)
  timeUnixNano : Option Nat := none
  asDouble : Option ℚ := none
  asInt : Option ℚ := none

/-- `sum` / `gauge` / `histogram` payload of a metric. -/
structure OTLPDataPoints where
  dataPoints : List OTLPDataPoint

/-- `OTLPMetric` (fields the parser reads). -/
structure OTLPMetric where
  name : String
  unit : Option String := none
  sum : Option OTLPDataPoints := none
  gauge : Option OTLPDataPoints := none
  histogram : Option OTLPDataPoints := none

/-- `OTLPScopeMetrics` (fields the parser reads). -/
structure OTLPScopeMetrics where
  metrics : List OTLPMetric

/-- `OTLPResourceMetrics`. -/
structure OTLPResourceMetrics where
  resource : OTLPResource
  scopeMetrics : List OTLPScopeMetrics

/-- `OTLPMetricsPayload`. -/
structure OTLPMetricsPayload where
  resourceMetrics : List OTLPResourceMetrics

/-- `ParsedOTelMetric`. -/
structure ParsedOTelMetric where
  timestamp : Option Nat
  metricName : String
  value : ℚ
  unit : Option String
  sessionId : Option SimpleVal
  resourceAttributes : Attrs
  metricAttributes : Attrs
deriving DecidableEq, Repr

/-- The `if (metric.sum) ... else if (metric.gauge) ... else if
(metric.histogram) ...` chain selecting the data points of a metric. -/
def selectDataPoints (m : OTLPMetric) : List OTLPDataPoint :=
  match m.sum with
  | some s => s.dataPoints
  | none =>
    match m.gauge with
    | some g => g.dataPoints
    | none =>
      match m.histogram with
      | some h => h.dataPoints
      | none => []

/-- One parsed metric, as built in the inner loop of `parseOTLPMetric`:
`value = dataPoint.asDouble ?? dataPoint.asInt ?? 0`. -/
def mkParsedMetric (rm : OTLPResourceMetrics) (m : OTLPMetric)
    (dp : OTLPDataPoint) : ParsedOTelMetric :=
  let resourceAttributes := extractAttributes rm.resource.attributes
  { timestamp := dp.timeUnixNano.map nanoToMillis
    metricName := m.name
    value :=
      match dp.asDouble with
      | some d => d
      | none =>
        match dp.asInt with
        | some i => i
        | none => 0
    unit := m.unit
    sessionId := recordGet resourceAttributes "session.id"
    resourceAttributes := resourceAttributes
    metricAttributes := extractAttributes dp.attributes }

/-- `parseOTLPMetric`: traverse
`resourceMetrics[].scopeMetrics[].metrics[].{sum|gauge|histogram}.dataPoints[]`,
pushing one parsed metric per data point. -/
def parseOTLPMetric (p : OTLPMetricsPayload) : List ParsedOTelMetric :=
  p.resourceMetrics.flatMap (fun rm =>
    rm.scopeMetrics.flatMap (fun sm =>
      sm.metrics.flatMap (fun m =>
        (selectDataPoints m).map (fun dp => mkParsedMetric rm m dp))))

/-- The data points of a metrics payload in traversal order, each paired
with its owning resource entry and metric. -/
def flatDataPoints (p : OTLPMetricsPayload) :
    List (OTLPResourceMetrics × OTLPMetric × OTLPDataPoint) :=
  p.resourceMetrics.flatMap (fun rm =>
    rm.scopeMetrics.flatMap (fun sm =>
      sm.metrics.flatMap (fun m =>
        (selectDataPoints m).map (fun dp => (rm, m, dp)))))

/-- Total number of selected data points in a metrics payload. -/
def totalDataPoints (p : OTLPMetricsPayload) : Nat :=
  (p.resourceMetrics.map (fun rm =>
    (rm.scopeMetrics.map (fun sm =>
      (sm.metrics.map (fun m => (selectDataPoints m).length)).sum)).sum)).sum

/-- `parseOTLPMetricLine`: a line whose JSON decode or payload traversal
fails (modeled as `none`) yields `[]`. -/
def parseOTLPMetricLine (line : Option OTLPMetricsPayload) :
    List ParsedOTelMetric :=
  match line with
  | none => []
  | some p => parseOTLPMetric p

/-! ## OTel event normalization (`OTelLogReader.transformToHookEvent`) -/

/-- JavaScript truthiness of a simple value. -/
def truthy : SimpleVal → Bool
  | .s v => v ≠ ""
  | .n v => v ≠ 0
  | .b v => v

/-- `v || dflt` where `dflt` is a string (used for
`log.sessionId || this.sessionId`). -/
def jsOrString (v : Option SimpleVal) (dflt : String) : SimpleVal :=
  match v with
  | some sv => if truthy sv then sv else .s dflt
  | none => .s dflt

/-- Fields shared by every transformed event (`baseEvent` in the source;
the random `nanoid()` identifier is omitted from the model). -/
structure OTelBaseEvent where
  timestamp : Nat
  sessionId : SimpleVal
  cwd : Option SimpleVal
  permissionMode : Option SimpleVal
deriving DecidableEq, Repr

/-- The transformed events (`OTelAPIRequestEvent` … `OTelToolDecisionEvent`);
attribute-backed fields carry the raw looked-up values, since the TypeScript
casts are runtime no-ops.  `toolParameters` keeps the raw
`tool_parameters` attribute (the conditional `JSON.parse` re-decoding of that
string is outside the model). -/
inductive OTelHookEvent where
  | apiRequest (base : OTelBaseEvent)
      (model cost durationMs inputTokens outputTokens cacheReadTokens
        cacheCreationTokens : Option SimpleVal)
  | apiError (base : OTelBaseEvent)
      (model errorMessage statusCode durationMs attempt : Option SimpleVal)
  | toolResult (base : OTelBaseEvent) (toolName : Option SimpleVal)
      (success : Bool)
      (durationMs errorMessage decision source toolParameters :
        Option SimpleVal)
  | userPrompt (base : OTelBaseEvent)
      (promptLength promptContent : Option SimpleVal)
  | toolDecision (base : OTelBaseEvent)
      (toolName decision source : Option SimpleVal)
deriving DecidableEq, Repr

/-- `transformToHookEvent`: dispatch on `log.eventName`; any name other than
the five recognized `claude_code.*` names yields `null` (the record is
dropped, not defaulted). -/
def transformToHookEvent (readerSessionId : String) (log : ParsedOTelLog) :
    Option OTelHookEvent :=
  let base : OTelBaseEvent :=
    { timestamp := log.timestamp
      sessionId := jsOrString log.sessionId readerSessionId
      cwd := recordGet log.resourceAttributes "cwd"
      permissionMode := recordGet log.resourceAttributes "permission_mode" }
  if log.eventName = "claude_code.api_request" then
    some (.apiRequest base
      (recordGet log.logAttributes "model")
      (recordGet log.logAttributes "cost_usd")
      (recordGet log.logAttributes "duration_ms")
      (recordGet log.logAttributes "input_tokens")
      (recordGet log.logAttributes "output_tokens")
      (recordGet log.logAttributes "cache_read_tokens")
      (recordGet log.logAttributes "cache_creation_tokens"))
  else if log.eventName = "claude_code.api_error" then
    some (.apiError base
      (recordGet log.logAttributes "model")
      (recordGet log.logAttributes "error")
      (recordGet log.logAttributes "status_code")
      (recordGet log.logAttributes "duration_ms")
      (recordGet log.logAttributes "attempt"))
  else if log.eventName = "claude_code.tool_result" then
    some (.toolResult base
      (recordGet log.logAttributes "tool_name")
      (recordGet log.logAttributes "success" == some (.s "true"))
      (recordGet log.logAttributes "duration_ms")
      (recordGet log.logAttributes "error")
      (recordGet log.logAttributes "decision")
      (recordGet log.logAttributes "source")
      (recordGet log.logAttributes "tool_parameters"))
  else if log.eventName = "claude_code.user_prompt" then
    some (.userPrompt base
      (recordGet log.logAttributes "prompt_length")
      (recordGet log.logAttributes "prompt"))
  else if log.eventName = "claude_code.tool_decision" then
    some (.toolDecision base
      (recordGet log.logAttributes "tool_name")
      (recordGet log.logAttributes "decision")
      (recordGet log.logAttributes "source"))
  else
    none

/-- The five event names `transformToHookEvent` recognizes. -/
def recognizedEventNames : List String :=
  ["claude_code.api_request", "claude_code.api_error",
   "claude_code.tool_result", "claude_code.user_prompt",
   "claude_code.tool_decision"]

/-! ### Parser lemmas -/

theorem zip_map_fst {α β : Type _} (f : α → β) (l : List α) :
    ∀ pr ∈ (l.map f).zip l, pr.1 = f pr.2 := by
  induction l with
  | nil => simp
  | cons a t ih =>
    intro pr hpr
    simp only [List.map_cons, List.zip_cons_cons, List.mem_cons] at hpr
    rcases hpr with h | h
    · rw [h]
    · exact ih pr h

theorem parseOTLPLog_eq_map (p : OTLPLogsPayload) :
    parseOTLPLog p =
      (flatLogRecords p).map (fun pr => mkParsedLog pr.1 pr.2) := by
  simp [parseOTLPLog, flatLogRecords, List.map_flatMap, List.map_map,
    Function.comp_def]

theorem flatLogRecords_length (p : OTLPLogsPayload) :
    (flatLogRecords p).length = totalLogRecords p := by
  simp [flatLogRecords, totalLogRecords, List.length_flatMap, List.map_map,
    Function.comp_def]

theorem parseOTLPMetric_eq_map (p : OTLPMetricsPayload) :
    parseOTLPMetric p =
      (flatDataPoints p).map (fun pr => mkParsedMetric pr.1 pr.2.1 pr.2.2) := by
  simp [parseOTLPMetric, flatDataPoints, List.map_flatMap, List.map_map,
    Function.comp_def]

theorem flatDataPoints_length (p : OTLPMetricsPayload) :
    (flatDataPoints p).length = totalDataPoints p := by
  simp [flatDataPoints, totalDataPoints, List.length_flatMap, List.map_map,
    Function.comp_def]

/-- C3: an OTLP logs payload containing N log records (across all
`resourceLogs` and `scopeLogs`) parses to exactly N events; pairing the
parsed events with the records in traversal order, each event's millisecond
timestamp is its record's `timeUnixNano` divided by 1,000,000 — the exact
integer quotient, so the error is strictly below one millisecond — and the
event's session id equals the resource attribute `session.id` whenever that
attribute is present. -/
theorem claim3_otlp_fanout (p : OTLPLogsPayload) :
    (parseOTLPLog p).length = totalLogRecords p ∧
    ∀ pr ∈ (parseOTLPLog p).zip (flatLogRecords p),
      pr.1.timestamp = pr.2.2.timeUnixNano / 1000000 ∧
      pr.1.timestamp * 1000000 ≤ pr.2.2.timeUnixNano ∧
      pr.2.2.timeUnixNano < (pr.1.timestamp + 1) * 1000000 ∧
      ∀ v, recordGet (extractAttributes pr.2.1.resource.attributes)
          "session.id" = some v →
        pr.1.sessionId = some v := by
  constructor
  · rw [parseOTLPLog_eq_map, List.length_map, flatLogRecords_length]
  · intro pr hpr
    have hfst : pr.1 = mkParsedLog pr.2.1 pr.2.2 := by
      rw [parseOTLPLog_eq_map] at hpr
      exact zip_map_fst (fun q => mkParsedLog q.1 q.2) (flatLogRecords p)
        pr hpr
    have hts : pr.1.timestamp = pr.2.2.timeUnixNano / 1000000 := by
      rw [hfst]
      rfl
    refine ⟨hts, ?_, ?_, ?_⟩
    · have h := Nat.div_add_mod pr.2.2.timeUnixNano 1000000
      have h2 := Nat.mod_lt pr.2.2.timeUnixNano
        (show 0 < 1000000 by norm_num)
      omega
    · have h := Nat.div_add_mod pr.2.2.timeUnixNano 1000000
      have h2 := Nat.mod_lt pr.2.2.timeUnixNano
        (show 0 < 1000000 by norm_num)
      omega
    · intro v hv
      rw [hfst]
      simpa [mkParsedLog] using hv

/-- Concrete two-record payload used by the C3 witness. -/
def logPayloadEx : OTLPLogsPayload :=
  { resourceLogs :=
    [{ resource :=
        { attributes :=
          [("session.id", .mk (some "abc") none none none none none)] }
       scopeLogs :=
        [{ logRecords :=
            [{ timeUnixNano := 1700000000123456789
               body := some (.mk (some "claude_code.api_request")
                 none none none none none)
               attributes := [] },
             { timeUnixNano := 999999
               body := none
               attributes := [] }] }] }] }

/-- Witness for C3: the fan-out theorem applied to a concrete two-record
payload, with the record count evaluated. -/
theorem claim3_otlp_fanout_witness :
    ((parseOTLPLog logPayloadEx).length = totalLogRecords logPayloadEx ∧
      ∀ pr ∈ (parseOTLPLog logPayloadEx).zip (flatLogRecords logPayloadEx),
        pr.1.timestamp = pr.2.2.timeUnixNano / 1000000 ∧
        pr.1.timestamp * 1000000 ≤ pr.2.2.timeUnixNano ∧
        pr.2.2.timeUnixNano < (pr.1.timestamp + 1) * 1000000 ∧
        ∀ v, recordGet (extractAttributes pr.2.1.resource.attributes)
            "session.id" = some v →
          pr.1.sessionId = some v) ∧
    totalLogRecords logPayloadEx = 2 :=
  ⟨claim3_otlp_fanout logPayloadEx, by decide⟩

/-- C4: the OTLP line parsers are total and return the empty list on a line
whose JSON decode fails (modeled as `none`); and a successfully parsed log
record whose event name is not one of the five recognized names produces no
normalized event — `transformToHookEvent` returns `null` instead of
defaulting. -/
theorem claim4_parse_total_drop_unknown :
    parseOTLPLogLine none = [] ∧ parseOTLPMetricLine none = [] ∧
    ∀ (sid : String) (log : ParsedOTelLog),
      log.eventName ∉ recognizedEventNames →
      transformToHookEvent sid log = none := by
  refine ⟨rfl, rfl, ?_⟩
  intro sid log h
  simp only [recognizedEventNames, List.mem_cons, List.not_mem_nil, or_false,
    not_or] at h
  obtain ⟨h1, h2, h3, h4, h5⟩ := h
  simp [transformToHookEvent, h1, h2, h3, h4, h5]

/-- A parsed record with an unrecognized event name, for the C4 witness. -/
def unknownLogEx : ParsedOTelLog :=
  { timestamp := 0
    eventName := "unknown"
    sessionId := none
    resourceAttributes := []
    logAttributes := [] }

/-- Witness for C4: the `'unknown'` event name is unrecognized and is
dropped. -/
theorem claim4_parse_total_drop_unknown_witness :
    unknownLogEx.eventName ∉ recognizedEventNames ∧
    transformToHookEvent "s" unknownLogEx = none :=
  ⟨by decide, claim4_parse_total_drop_unknown.2.2 "s" unknownLogEx (by decide)⟩

/-- C10: every selected OTLP metric data point yields a parsed metric (none
are dropped), and its value is `asDouble` when present, else `asInt` when
present, else `0` — in particular a data point carrying neither numeric
field still yields a metric event with value 0. -/
theorem claim10_metric_value_default (p : OTLPMetricsPayload) :
    (parseOTLPMetric p).length = totalDataPoints p ∧
    ∀ pr ∈ (parseOTLPMetric p).zip (flatDataPoints p),
      pr.1.value =
        (match pr.2.2.2.asDouble with
         | some d => d
         | none =>
           match pr.2.2.2.asInt with
           | some i => i
           | none => 0) ∧
      (pr.2.2.2.asDouble = none → pr.2.2.2.asInt = none →
        pr.1.value = 0) := by
  constructor
  · rw [parseOTLPMetric_eq_map, List.length_map, flatDataPoints_length]
  · intro pr hpr
    have hfst : pr.1 = mkParsedMetric pr.2.1 pr.2.2.1 pr.2.2.2 := by
      rw [parseOTLPMetric_eq_map] at hpr
      exact zip_map_fst (fun q => mkParsedMetric q.1 q.2.1 q.2.2)
        (flatDataPoints p) pr hpr
    have hval : pr.1.value =
        (match pr.2.2.2.asDouble with
         | some d => d
         | none =>
           match pr.2.2.2.asInt with
           | some i => i
           | none => 0) := by
      rw [hfst]
      rfl
    refine ⟨hval, ?_⟩
    intro hd hi
    rw [hval, hd, hi]

/-- Concrete metrics payload whose single gauge data point carries neither
`asDouble` nor `asInt`, for the C10 witness. -/
def metricsPayloadEx : OTLPMetricsPayload :=
  { resourceMetrics :=
    [{ resource := { attributes := [] }
       scopeMetrics :=
        [{ metrics :=
            [{ name := "claude_code.token.usage"
               unit := some "tokens"
               gauge := some { dataPoints :=
                 [{ attributes := [] }] } }] }] }] }

/-- Witness for C10: the value-selection theorem applied to the concrete
payload, with the parsed value evaluated to 0. -/
theorem claim10_metric_value_default_witness :
    ((parseOTLPMetric metricsPayloadEx).length =
        totalDataPoints metricsPayloadEx ∧
      ∀ pr ∈ (parseOTLPMetric metricsPayloadEx).zip
          (flatDataPoints metricsPayloadEx),
        pr.1.value =
          (match pr.2.2.2.asDouble with
           | some d => d
           | none =>
             match pr.2.2.2.asInt with
             | some i => i
             | none => 0) ∧
        (pr.2.2.2.asDouble = none → pr.2.2.2.asInt = none →
          pr.1.value = 0)) ∧
    (parseOTLPMetric metricsPayloadEx).map (fun m => m.value) = [0] :=
  ⟨claim10_metric_value_default metricsPayloadEx, by decide⟩

/-! ## Generated hook script (`HookConfigGenerator.generateHookScript`)

The bash script embedded in `HookConfigGenerator` reads one wire hook event
from stdin and, when `jq` is available, either skips it (PreToolUse) or
writes one enriched event to the session log; without `jq` it writes the raw
event unmodified.  The jq program is modeled as a pure function on the wire
event; `now`, the bash `$SESSION_ID`, and the custom-hook capture variables
are parameters. -/

/-- A JSON value as handled by jq. -/
inductive JVal where
  | s (v : String)
  | n (v : ℚ)
  | b (v : Bool)
  | null
  | arr (vs : List JVal)
  | obj (fs : List (String × JVal))

/-- jq falsiness: only `null` and `false` are falsy for `//`. -/
def jqFalsy : JVal → Bool
  | .null => true
  | .b false => true
  | _ => false

/-- The jq alternative operator `a // b` on possibly-missing fields
(`none` models a missing key, whose jq lookup is `null`). -/
def jqAlt (a b : Option JVal) : Option JVal :=
  match a with
  | some v => if jqFalsy v then b else some v
  | none => b

/-- `a // dflt` where the default is a present value, as in
`(.id // (now | tostring))`. -/
def jqAltD (a : Option JVal) (dflt : JVal) : JVal :=
  match jqAlt a (some dflt) with
  | some v => v
  | none => dflt

/-- `with_entries(select(.value != null))` on one field: a field whose value
is `null` is removed from the written event. -/
def dropNull : Option JVal → Option JVal
  | some .null => none
  | v => v

/-- One wire hook event as read from stdin (the keys the jq program looks
at, in both producer-side snake_case and camelCase spellings). -/
structure WireHookEvent where
  id : Option JVal := none
  hook_event_name : Option JVal := none
  eventType : Option JVal := none
  timestamp : Option JVal := none
  session_id : Option JVal := none
  sessionId : Option JVal := none
  transcript_path : Option JVal := none
  cwd : Option JVal := none
  permission_mode : Option JVal := none
  permissionMode : Option JVal := none
  tool_name : Option JVal := none
  toolName : Option JVal := none
  tool_input : Option JVal := none
  toolInput : Option JVal := none
  tool_response : Option JVal := none
  toolResult : Option JVal := none
  duration : Option JVal := none
  prompt : Option JVal := none
  reason : Option JVal := none
  stop_hook_active : Option JVal := none
  stopHookActive : Option JVal := none
  notification_type : Option JVal := none
  notificationType : Option JVal := none
  message : Option JVal := none
  trigger : Option JVal := none
  custom_instructions : Option JVal := none
  customInstructions : Option JVal := none
  source : Option JVal := none

/-- `HOOK_EVENT_NAME` as extracted by the script:
`.hook_event_name // .eventType`. -/
def scriptEventName (e : WireHookEvent) : Option JVal :=
  jqAlt e.hook_event_name e.eventType

/-- The PreToolUse skip test (`[[ "$HOOK_EVENT_NAME" == "PreToolUse" ]]`;
`jq -r` of a non-string value never prints `PreToolUse`). -/
def isPreToolUse (e : WireHookEvent) : Bool :=
  match scriptEventName e with
  | some (.s v) => v = "PreToolUse"
  | _ => false

/-- jq `if . == "PostToolUse" then "ToolUse" else . end`. -/
def renamePostToolUse (v : JVal) : JVal :=
  match v with
  | .s w => if w = "PostToolUse" then .s "ToolUse" else .s w
  | w => w

/-- The enriched event written to the log (field per jq output key; `none`
means the key was removed by `with_entries(select(.value != null))`). -/
structure EnrichedEvent where
  id : JVal
  eventType : Option JVal
  timestamp : JVal
  sessionId : JVal
  transcriptPath : Option JVal
  cwd : Option JVal
  permissionMode : Option JVal
  toolName : Option JVal
  toolInput : Option JVal
  toolResult : Option JVal
  duration : Option JVal
  prompt : Option JVal
  reason : Option JVal
  stopHookActive : Option JVal
  notificationType : Option JVal
  message : Option JVal
  trigger : Option JVal
  customInstructions : Option JVal
  source : Option JVal
  hookCommand : Option JVal
  hookOutput : Option JVal
  hookExitCode : JVal
  hookResponse : Option JVal

/-- The jq enrichment program of the hook script, field by field. -/
def enrichEvent (nowMs : ℚ) (nowStr sid hookCmd hookOut : String)
    (hookExit : ℚ) (hookResp : JVal) (e : WireHookEvent) : EnrichedEvent :=
  { id := jqAltD e.id (.s nowStr)
    eventType :=
      dropNull ((jqAlt e.hook_event_name e.eventType).map renamePostToolUse)
    timestamp := jqAltD e.timestamp (.n nowMs)
    sessionId := jqAltD (jqAlt e.session_id e.sessionId) (.s sid)
    transcriptPath := dropNull e.transcript_path
    cwd := dropNull e.cwd
    permissionMode := dropNull (jqAlt e.permission_mode e.permissionMode)
    toolName := dropNull (jqAlt e.tool_name e.toolName)
    toolInput := dropNull (jqAlt e.tool_input e.toolInput)
    toolResult := dropNull (jqAlt e.tool_response e.toolResult)
    duration := dropNull e.duration
    prompt := dropNull e.prompt
    reason := dropNull e.reason
    stopHookActive := dropNull (jqAlt e.stop_hook_active e.stopHookActive)
    notificationType :=
      dropNull (jqAlt e.notification_type e.notificationType)
    message := dropNull e.message
    trigger := dropNull e.trigger
    customInstructions :=
      dropNull (jqAlt e.custom_instructions e.customInstructions)
    source := dropNull e.source
    hookCommand := if hookCmd = "" then none else some (.s hookCmd)
    hookOutput := if hookOut = "" then none else some (.s hookOut)
    hookExitCode := .n hookExit
    hookResponse := dropNull (some hookResp) }

/-- What the script appends to the log for one stdin event. -/
inductive ScriptOutput where
  | enriched (ev : EnrichedEvent)
  | raw (e : WireHookEvent)

/-- The transform-and-write stage of the hook script: with `jq` available a
PreToolUse event exits early writing nothing, any other event is enriched;
without `jq` the raw event is written unmodified. -/
def hookScript (jqAvailable : Bool) (nowMs : ℚ)
    (nowStr sid hookCmd hookOut : String) (hookExit : ℚ) (hookResp : JVal)
    (e : WireHookEvent) : Option ScriptOutput :=
  if jqAvailable then
    if isPreToolUse e then none
    else some (.enriched
      (enrichEvent nowMs nowStr sid hookCmd hookOut hookExit hookResp e))
  else
    some (.raw e)

/-- C5: with `jq` available, a before/after pair of hook wire events for one
tool invocation is written as exactly one logged event: the PreToolUse record
is dropped entirely and the PostToolUse record is kept, its event type
renamed to `ToolUse`, carrying the tool input (`tool_input // toolInput`),
the result (`tool_response // toolResult`) and the duration of the
after-record. -/
theorem claim5_tool_coalescing (nowMs : ℚ)
    (nowStr sid hookCmd hookOut : String) (hookExit : ℚ) (hookResp : JVal)
    (e1 e2 : WireHookEvent)
    (h1 : scriptEventName e1 = some (.s "PreToolUse"))
    (h2 : scriptEventName e2 = some (.s "PostToolUse")) :
    [e1, e2].filterMap
        (hookScript true nowMs nowStr sid hookCmd hookOut hookExit hookResp) =
      [.enriched
        (enrichEvent nowMs nowStr sid hookCmd hookOut hookExit hookResp e2)] ∧
    (enrichEvent nowMs nowStr sid hookCmd hookOut hookExit hookResp
        e2).eventType = some (.s "ToolUse") ∧
    (enrichEvent nowMs nowStr sid hookCmd hookOut hookExit hookResp
        e2).toolInput = dropNull (jqAlt e2.tool_input e2.toolInput) ∧
    (enrichEvent nowMs nowStr sid hookCmd hookOut hookExit hookResp
        e2).toolResult = dropNull (jqAlt e2.tool_response e2.toolResult) ∧
    (enrichEvent nowMs nowStr sid hookCmd hookOut hookExit hookResp
        e2).duration = dropNull e2.duration := by
  have hpre1 : isPreToolUse e1 = true := by
    simp [isPreToolUse, h1]
  have hpre2 : isPreToolUse e2 = false := by
    simp [isPreToolUse, h2]
  refine ⟨?_, ?_, rfl, rfl, rfl⟩
  · simp [hookScript, hpre1, hpre2]
  · have : jqAlt e2.hook_event_name e2.eventType = some (.s "PostToolUse") :=
      h2
    simp [enrichEvent, this, renamePostToolUse, dropNull]

/-- Concrete PreToolUse wire event for the C5 witness. -/
def preToolUseEx : WireHookEvent :=
  { hook_event_name := some (.s "PreToolUse")
    session_id := some (.s "abc")
    tool_name := some (.s "Bash")
    tool_input := some (.obj [("command", .s "ls")]) }

/-- Concrete PostToolUse wire event for the C5 witness. -/
def postToolUseEx : WireHookEvent :=
  { hook_event_name := some (.s "PostToolUse")
    session_id := some (.s "abc")
    tool_name := some (.s "Bash")
    tool_input := some (.obj [("command", .s "ls")])
    tool_response := some (.s "ok")
    duration := some (.n 12) }

/-- Witness for C5: the coalescing theorem applied to a concrete
before/after pair. -/
theorem claim5_tool_coalescing_witness :
    scriptEventName preToolUseEx = some (.s "PreToolUse") ∧
    scriptEventName postToolUseEx = some (.s "PostToolUse") ∧
    [preToolUseEx, postToolUseEx].filterMap
        (hookScript true 1000 "1000" "abc" "" "" 0 .null) =
      [.enriched (enrichEvent 1000 "1000" "abc" "" "" 0 .null postToolUseEx)] ∧
    (enrichEvent 1000 "1000" "abc" "" "" 0 .null postToolUseEx).eventType =
      some (.s "ToolUse") :=
  ⟨rfl, rfl,
    (claim5_tool_coalescing 1000 "1000" "abc" "" "" 0 .null preToolUseEx
      postToolUseEx rfl rfl).1,
    (claim5_tool_coalescing 1000 "1000" "abc" "" "" 0 .null preToolUseEx
      postToolUseEx rfl rfl).2.1⟩

/-! ## Session registry (`LogManager` / `SessionDiscovery`)

Filesystem and process state are modeled as an environment record; the
try/catch wrappers of the source make each probe total, which the model
reflects by giving each probe a total result type. -/

/-- `SessionMetadata` (`types/events.ts`). -/
structure SessionMetadata where
  sessionId : String
  pid : Nat
  startTime : Nat
  cwd : String
  user : String
deriving DecidableEq, Repr

/-- `Session` (`types/events.ts`). -/
structure Session where
  sessionId : String
  logPath : String
  metadata : Option SessionMetadata
  isActive : Bool
deriving DecidableEq, Repr

/-- Environment a discovery pass runs against: the log directory listing,
the per-path `statSync(..).isFile()` probe, the metadata-file existence and
read probes keyed by session id, and `process.kill(pid, 0)` which either
succeeds or throws. -/
structure SysEnv where
  homedir : String
  dirExists : Bool
  dirFiles : List String
  isFileAt : String → Bool
  metaFileExists : String → Bool
  metaFor : String → Option SessionMetadata
  kill0 : Nat → Except String Unit

/-- `path.join(a, b)`. -/
def joinPath (a b : String) : String := a ++ "/" ++ b

/-- The log directory `path.join(os.homedir(), '.claude-code', 'hooks')`. -/
def logDir (env : SysEnv) : String :=
  joinPath (joinPath env.homedir ".claude-code") "hooks"

/-- `LogManager.getLogPath`. -/
def getLogPath (env : SysEnv) (sessionId : String) : String :=
  joinPath (logDir env) (sessionId ++ ".jsonl")

/-- `LogManager.getMetadataPath`. -/
def getMetadataPath (env : SysEnv) (sessionId : String) : String :=
  joinPath (logDir env) (sessionId ++ ".meta")

/-- `LogManager.isLogActive`: `statSync` succeeding on a regular file
(the catch branch makes any failure `false`). -/
def isLogActive (env : SysEnv) (p : String) : Bool := env.isFileAt p

/-- `LogManager.readMetadata`: `null` on any read or parse failure. -/
def readMetadata (env : SysEnv) (sessionId : String) :
    Option SessionMetadata := env.metaFor sessionId

/-- `LogManager.isProcessAlive`: `process.kill(pid, 0)` inside try/catch —
a throw (for example `ESRCH` on a dead process) returns `false` instead of
propagating. -/
def isProcessAlive (env : SysEnv) (pid : Nat) : Bool :=
  match env.kill0 pid with
  | .ok _ => true
  | .error _ => false

/-- JavaScript `str.replace('.jsonl', '')`: remove the first occurrence of
the pattern only. -/
def removeFirst (pat : List Char) : List Char → List Char
  | [] => []
  | c :: rest =>
    if pat.isPrefixOf (c :: rest) then (c :: rest).drop pat.length
    else c :: removeFirst pat rest

/-- `file.replace('.jsonl', '')`, deriving a session id from a file name. -/
def stripJsonl (f : String) : String := ⟨removeFirst ".jsonl".data f.data⟩

/-- JavaScript `s.endsWith(pat)`. -/
def strEndsWith (s pat : String) : Bool := pat.data.isSuffixOf s.data

/-- The per-file body of the `discoverSessions` loop: skip a file that does
not stat as a regular file; otherwise read its metadata and keep the session
iff no metadata is readable or the metadata's process id is alive. -/
def discoverOne (env : SysEnv) (f : String) : Option Session :=
  let sessionId := stripJsonl f
  let logPath := joinPath (logDir env) f
  if isLogActive env logPath = false then none
  else
    let metadata := readMetadata env sessionId
    let isActive :=
      match metadata with
      | some m => isProcessAlive env m.pid
      | none => true
    if isActive then
      some { sessionId := sessionId, logPath := logPath,
             metadata := metadata, isActive := isActive }
    else none

/-- `SessionDiscovery.discoverSessions`: list `*.jsonl` files and run the
per-file check on each (an absent directory is created and yields no
sessions). -/
def discoverSessions (env : SysEnv) : List Session :=
  if env.dirExists = false then []
  else
    (env.dirFiles.filter (fun f => strEndsWith f ".jsonl")).filterMap
      (discoverOne env)

/-- The directory-watch callback body of `SessionDiscovery.watchForSessions`:
on a `rename` event for a `*.jsonl` file that stats as a regular file, build
a Session (metadata read but liveness never probed, `isActive` hard-coded
`true`) and signal it; otherwise signal nothing. -/
def watchCallback (env : SysEnv) (eventType : String)
    (filename : Option String) : Option Session :=
  match filename with
  | none => none
  | some f =>
    if strEndsWith f ".jsonl" = false then none
    else if eventType = "rename" then
      let sessionId := stripJsonl f
      let logPath := joinPath (logDir env) f
      if isLogActive env logPath then
        some { sessionId := sessionId, logPath := logPath,
               metadata := readMetadata env sessionId, isActive := true }
      else none
    else none

/-- The per-file body of the `cleanupStaleLogs` loop, returning the paths it
unlinks for that file: both the log and metadata paths when a metadata file
exists, reads successfully, and its process id is not alive; nothing
otherwise. -/
def cleanupOne (env : SysEnv) (f : String) : List String :=
  let sessionId := stripJsonl f
  if env.metaFileExists sessionId then
    match readMetadata env sessionId with
    | some m =>
      if isProcessAlive env m.pid = false then
        [getLogPath env sessionId, getMetadataPath env sessionId]
      else []
    | none => []
  else []

/-- `LogManager.cleanupStaleLogs`, as the list of paths it unlinks over all
`*.jsonl` files of the directory. -/
def cleanupStaleLogs (env : SysEnv) : List String :=
  if env.dirExists = false then []
  else
    (env.dirFiles.filter (fun f => strEndsWith f ".jsonl")).flatMap
      (cleanupOne env)

/-! ### String path lemmas -/

theorem string_eq_of_data {a b : String} (h : a.data = b.data) : a = b := by
  cases a
  cases b
  exact congrArg String.mk h

theorem joinPath_right_inj {a b c : String} (h : joinPath a b = joinPath a c) :
    b = c := by
  apply string_eq_of_data
  have hd := congrArg String.data h
  simp only [joinPath, String.data_append] at hd
  exact List.append_cancel_left hd

theorem append_right_inj {a b : String} (suf : String)
    (h : a ++ suf = b ++ suf) : a = b := by
  apply string_eq_of_data
  have hd := congrArg String.data h
  simp only [String.data_append] at hd
  exact List.append_cancel_right hd

theorem jsonl_ne_meta (s1 s2 : String) :
    (s1 ++ ".jsonl" : String) ≠ s2 ++ ".meta" := by
  intro h
  have hd := congrArg String.data h
  simp only [String.data_append] at hd
  have h1 : (s1.data ++ (".jsonl" : String).data).getLast? = some 'l' := by
    rw [show ((".jsonl" : String).data : List Char) =
      '.' :: ['j', 's', 'o', 'n', 'l'] from rfl]
    rw [List.getLast?_append_cons]
    rfl
  have h2 : (s2.data ++ (".meta" : String).data).getLast? = some 'a' := by
    rw [show ((".meta" : String).data : List Char) =
      '.' :: ['m', 'e', 't', 'a'] from rfl]
    rw [List.getLast?_append_cons]
    rfl
  rw [hd, h2] at h1
  simp at h1

theorem getLogPath_inj {env : SysEnv} {s1 s2 : String}
    (h : getLogPath env s1 = getLogPath env s2) : s1 = s2 :=
  append_right_inj ".jsonl" (joinPath_right_inj h)

theorem getLogPath_ne_getMetadataPath (env : SysEnv) (s1 s2 : String) :
    getLogPath env s1 ≠ getMetadataPath env s2 := by
  intro h
  exact jsonl_ne_meta s1 s2 (joinPath_right_inj h)

/-! ### Discovery lemmas -/

theorem discoverOne_inv {env : SysEnv} {f : String} {s : Session}
    (h : discoverOne env f = some s) :
    s.logPath = joinPath (logDir env) f ∧
    isLogActive env (joinPath (logDir env) f) = true ∧
    ∀ m, readMetadata env (stripJsonl f) = some m →
      isProcessAlive env m.pid = true := by
  cases hA : isLogActive env (joinPath (logDir env) f) with
  | false => simp [discoverOne, hA] at h
  | true =>
    cases hM : readMetadata env (stripJsonl f) with
    | none =>
      simp [discoverOne, hA, hM] at h
      refine ⟨?_, rfl, ?_⟩
      · rw [← h]
      · intro m hm
        cases hm
    | some m =>
      cases hP : isProcessAlive env m.pid with
      | false => simp [discoverOne, hA, hM, hP] at h
      | true =>
        simp [discoverOne, hA, hM, hP] at h
        refine ⟨?_, rfl, ?_⟩
        · rw [← h]
        · intro m2 hm2
          cases hm2
          exact hP

theorem discoverOne_some {env : SysEnv} {f : String}
    (hA : isLogActive env (joinPath (logDir env) f) = true)
    (hM : ∀ m, readMetadata env (stripJsonl f) = some m →
      isProcessAlive env m.pid = true) :
    ∃ s, discoverOne env f = some s ∧
      s.logPath = joinPath (logDir env) f := by
  cases hm : readMetadata env (stripJsonl f) with
  | none =>
    refine ⟨{ sessionId := stripJsonl f, logPath := joinPath (logDir env) f,
              metadata := none, isActive := true }, ?_, rfl⟩
    simp [discoverOne, hA, hm]
  | some m =>
    refine ⟨{ sessionId := stripJsonl f, logPath := joinPath (logDir env) f,
              metadata := some m, isActive := true }, ?_, rfl⟩
    simp [discoverOne, hA, hm, hM m hm]

/-- C6: a `*.jsonl` file of the log directory yields a discovered session if
and only if it stats as a regular file and either no companion metadata file
is readable or the recorded process id is currently alive; and the liveness
probe returns `false` — it never propagates the throw — when
`process.kill(pid, 0)` fails. -/
theorem claim6_liveness_gated_discovery (env : SysEnv) :
    (∀ f ∈ env.dirFiles, env.dirExists = true →
      strEndsWith f ".jsonl" = true →
      ((∃ s ∈ discoverSessions env, s.logPath = joinPath (logDir env) f) ↔
        (isLogActive env (joinPath (logDir env) f) = true ∧
          ∀ m, readMetadata env (stripJsonl f) = some m →
            isProcessAlive env m.pid = true))) ∧
    (∀ pid msg, env.kill0 pid = .error msg →
      isProcessAlive env pid = false) := by
  constructor
  · intro f hf hdir hext
    constructor
    · rintro ⟨s, hs, hsp⟩
      rw [discoverSessions, if_neg (by simp [hdir])] at hs
      rw [List.mem_filterMap] at hs
      obtain ⟨f2, _, hg⟩ := hs
      obtain ⟨hlp, _, _⟩ := discoverOne_inv hg
      have hf2 : f2 = f := joinPath_right_inj (hlp ▸ hsp)
      subst hf2
      obtain ⟨_, hA, hM⟩ := discoverOne_inv hg
      exact ⟨hA, hM⟩
    · rintro ⟨hA, hM⟩
      obtain ⟨s, hg, hlp⟩ := discoverOne_some hA hM
      refine ⟨s, ?_, hlp⟩
      rw [discoverSessions, if_neg (by simp [hdir]), List.mem_filterMap]
      exact ⟨f, List.mem_filter.2 ⟨hf, hext⟩, hg⟩
  · intro pid msg h
    simp [isProcessAlive, h]

/-- Sample metadata of a still-running session. -/
def liveMeta : SessionMetadata :=
  { sessionId := "live", pid := 1, startTime := 5, cwd := "/w", user := "u" }

/-- Sample metadata of a session whose process has died. -/
def deadMeta : SessionMetadata :=
  { sessionId := "dead", pid := 2, startTime := 9, cwd := "/w", user := "u" }

/-- Concrete environment: a live session, a dead one, and one without
metadata; only pid 1 is alive. -/
def envEx : SysEnv :=
  { homedir := "/home/u"
    dirExists := true
    dirFiles := ["live.jsonl", "dead.jsonl", "nometa.jsonl"]
    isFileAt := fun _ => true
    metaFileExists := fun sid => sid = "live" || sid = "dead"
    metaFor := fun sid =>
      if sid = "live" then some liveMeta
      else if sid = "dead" then some deadMeta
      else none
    kill0 := fun pid => if pid = 1 then .ok () else .error "ESRCH" }

/-- Witness for C6: the discovery characterization applied to the concrete
environment at the live session's file, plus the non-throwing dead probe. -/
theorem claim6_liveness_gated_discovery_witness :
    ((∃ s ∈ discoverSessions envEx,
        s.logPath = joinPath (logDir envEx) "live.jsonl") ↔
      (isLogActive envEx (joinPath (logDir envEx) "live.jsonl") = true ∧
        ∀ m, readMetadata envEx (stripJsonl "live.jsonl") = some m →
          isProcessAlive envEx m.pid = true)) ∧
    isProcessAlive envEx 2 = false :=
  ⟨(claim6_liveness_gated_discovery envEx).1 "live.jsonl" (by decide) rfl
      (by decide),
    (claim6_liveness_gated_discovery envEx).2 2 "ESRCH" rfl⟩

/-- Environment for the watch-path counterexample: a single freshly renamed
log file whose metadata names process 7, and no process is alive. -/
def envDead : SysEnv :=
  { homedir := "/home/u"
    dirExists := true
    dirFiles := ["dead.jsonl"]
    isFileAt := fun _ => true
    metaFileExists := fun _ => true
    metaFor := fun _ => some { sessionId := "dead", pid := 7, startTime := 0,
                               cwd := "/w", user := "u" }
    kill0 := fun _ => .error "ESRCH" }

/-- Counterexample to C7: on a `rename` event for `dead.jsonl`, whose
metadata names process 7 while `process.kill(7, 0)` throws (process dead),
the watch callback still signals a session — and marks it active — so a
candidate whose metadata references a dead process IS signalled. -/
theorem claim7_watch_liveness_cex :
    readMetadata envDead (stripJsonl "dead.jsonl") =
      some { sessionId := "dead", pid := 7, startTime := 0,
             cwd := "/w", user := "u" } ∧
    isProcessAlive envDead 7 = false ∧
    watchCallback envDead "rename" (some "dead.jsonl") =
      some { sessionId := stripJsonl "dead.jsonl"
             logPath := joinPath (logDir envDead) "dead.jsonl"
             metadata := some { sessionId := "dead", pid := 7, startTime := 0,
                                cwd := "/w", user := "u" }
             isActive := true } :=
  ⟨rfl, rfl, rfl⟩

/-- C7 as amended: the watch-for-new-session callback performs no liveness
validation at all — on a `rename` event it signals a candidate if and only
if the file name ends in `.jsonl` and the path stats as a regular file,
reading metadata but never probing the recorded process id, and every
signalled session is hard-coded active. -/
theorem claim7_watch_no_liveness (env : SysEnv) (f : String) :
    ((watchCallback env "rename" (some f)).isSome = true ↔
      (strEndsWith f ".jsonl" = true ∧
        isLogActive env (joinPath (logDir env) f) = true)) ∧
    (∀ et fn s, watchCallback env et fn = some s → s.isActive = true) ∧
    watchCallback env "rename" none = none := by
  refine ⟨?_, ?_, rfl⟩
  · cases hext : strEndsWith f ".jsonl" with
    | false => simp [watchCallback, hext]
    | true =>
      cases hA : isLogActive env (joinPath (logDir env) f) with
      | false => simp [watchCallback, hext, hA]
      | true => simp [watchCallback, hext, hA]
  · intro et fn s h
    match fn with
    | none => simp [watchCallback] at h
    | some f2 =>
      cases hext : strEndsWith f2 ".jsonl" with
      | false => simp [watchCallback, hext] at h
      | true =>
        by_cases het : et = "rename"
        · subst het
          cases hA : isLogActive env (joinPath (logDir env) f2) with
          | false => simp [watchCallback, hext, hA] at h
          | true =>
            simp [watchCallback, hext, hA] at h
            rw [← h]
        · simp [watchCallback, hext, het] at h

/-- Witness for C7's amended theorem: the dead-process candidate is
signalled. -/
theorem claim7_watch_no_liveness_witness :
    (watchCallback envDead "rename" (some "dead.jsonl")).isSome = true :=
  ((claim7_watch_no_liveness envDead "dead.jsonl").1).mpr ⟨by decide, rfl⟩

/-! ### Cleanup lemmas -/

theorem cleanupOne_mem {env : SysEnv} {f : String} {p : String}
    (hp : p ∈ cleanupOne env f) :
    (p = getLogPath env (stripJsonl f) ∨
      p = getMetadataPath env (stripJsonl f)) ∧
    env.metaFileExists (stripJsonl f) = true ∧
    ∃ m, readMetadata env (stripJsonl f) = some m ∧
      isProcessAlive env m.pid = false := by
  cases hE : env.metaFileExists (stripJsonl f) with
  | false => simp [cleanupOne, hE] at hp
  | true =>
    cases hm : readMetadata env (stripJsonl f) with
    | none => simp [cleanupOne, hE, hm] at hp
    | some m =>
      cases hP : isProcessAlive env m.pid with
      | true => simp [cleanupOne, hE, hm, hP] at hp
      | false =>
        simp [cleanupOne, hE, hm, hP] at hp
        rcases hp with h | h
        · exact ⟨Or.inl h, rfl, m, rfl, hP⟩
        · exact ⟨Or.inr h, rfl, m, rfl, hP⟩

theorem cleanupOne_stale {env : SysEnv} {f : String} {m : SessionMetadata}
    (hE : env.metaFileExists (stripJsonl f) = true)
    (hm : readMetadata env (stripJsonl f) = some m)
    (hP : isProcessAlive env m.pid = false) :
    cleanupOne env f =
      [getLogPath env (stripJsonl f), getMetadataPath env (stripJsonl f)] := by
  simp [cleanupOne, hE, hm, hP]

/-- C9: the cleanup pass deletes a session's log and metadata files exactly
when a readable metadata file exists and its recorded process id is not
alive; and every path it deletes is the log or metadata path of such a stale
session — log files with no (or unreadable) metadata, and all other files,
are untouched. -/
theorem claim9_cleanup_exact (env : SysEnv) (hdir : env.dirExists = true) :
    (∀ f ∈ env.dirFiles, strEndsWith f ".jsonl" = true →
      ((getLogPath env (stripJsonl f) ∈ cleanupStaleLogs env ∧
        getMetadataPath env (stripJsonl f) ∈ cleanupStaleLogs env) ↔
        (env.metaFileExists (stripJsonl f) = true ∧
          ∃ m, readMetadata env (stripJsonl f) = some m ∧
            isProcessAlive env m.pid = false))) ∧
    (∀ p ∈ cleanupStaleLogs env, ∃ f, f ∈ env.dirFiles ∧
      strEndsWith f ".jsonl" = true ∧
      (p = getLogPath env (stripJsonl f) ∨
        p = getMetadataPath env (stripJsonl f)) ∧
      env.metaFileExists (stripJsonl f) = true ∧
      ∃ m, readMetadata env (stripJsonl f) = some m ∧
        isProcessAlive env m.pid = false) := by
  have hframe : ∀ p ∈ cleanupStaleLogs env, ∃ f, f ∈ env.dirFiles ∧
      strEndsWith f ".jsonl" = true ∧
      (p = getLogPath env (stripJsonl f) ∨
        p = getMetadataPath env (stripJsonl f)) ∧
      env.metaFileExists (stripJsonl f) = true ∧
      ∃ m, readMetadata env (stripJsonl f) = some m ∧
        isProcessAlive env m.pid = false := by
    intro p hp
    rw [cleanupStaleLogs, if_neg (by simp [hdir]), List.mem_flatMap] at hp
    obtain ⟨f, hf, hpf⟩ := hp
    obtain ⟨hmem, hext⟩ := List.mem_filter.1 hf
    obtain ⟨hor, hE, m, hm, hP⟩ := cleanupOne_mem hpf
    exact ⟨f, hmem, hext, hor, hE, m, hm, hP⟩
  refine ⟨?_, hframe⟩
  intro f hf hext
  constructor
  · rintro ⟨hlog, _⟩
    obtain ⟨f2, _, _, hor, hE, m, hm, hP⟩ := hframe _ hlog
    have hsid : stripJsonl f2 = stripJsonl f := by
      rcases hor with h | h
      · exact (getLogPath_inj h).symm
      · exact absurd h (getLogPath_ne_getMetadataPath env _ _)
    rw [hsid] at hE hm
    exact ⟨hE, m, hm, hP⟩
  · rintro ⟨hE, m, hm, hP⟩
    have hone := cleanupOne_stale hE hm hP
    have hmem : ∀ q ∈ cleanupOne env f, q ∈ cleanupStaleLogs env := by
      intro q hq
      rw [cleanupStaleLogs, if_neg (by simp [hdir]), List.mem_flatMap]
      exact ⟨f, List.mem_filter.2 ⟨hf, hext⟩, hq⟩
    constructor
    · exact hmem _ (by rw [hone]; simp)
    · exact hmem _ (by rw [hone]; simp)

/-- Witness for C9: in the concrete environment, the dead session's log and
metadata paths are both deleted by the pass. -/
theorem claim9_cleanup_exact_witness :
    getLogPath envEx (stripJsonl "dead.jsonl") ∈ cleanupStaleLogs envEx ∧
    getMetadataPath envEx (stripJsonl "dead.jsonl") ∈
      cleanupStaleLogs envEx :=
  ((claim9_cleanup_exact envEx rfl).1 "dead.jsonl" (by decide)
    (by decide)).mpr ⟨rfl, deadMeta, rfl, rfl⟩

/-! ## Session-switch state machine (`App`)

The `App` component state relevant to session switching: the current
session, the pending switch candidate, the accumulated events
(`useEvents`, whose `clearEvents` resets the list), the error banner and
the scroll position.  `Ev` abstracts the normalized event payload. -/

/-- App state (`useState` hooks of `App`). -/
structure AppState (Ev : Type) where
  session : Option Session
  pendingNewSession : Option Session
  events : List Ev
  error : Option String
  selectedIndex : Nat

/-- The `watchForSessions` callback of `App`: with no current session the
new session becomes current (clearing the error); with a current session of
a different id the candidate becomes pending and everything else is
unchanged; a callback for the same id changes nothing. -/
def watchUpdate {Ev : Type} (st : AppState Ev) (newSession : Session) :
    AppState Ev :=
  match st.session with
  | none => { st with session := some newSession, error := none }
  | some prev =>
    if prev.sessionId ≠ newSession.sessionId then
      { st with pendingNewSession := some newSession }
    else st

/-- `switchToNewSession`: when a candidate is pending, make it current,
clear the pending candidate, reset the scroll position and clear the old
session's events; otherwise do nothing. -/
def switchToNewSession {Ev : Type} (st : AppState Ev) : AppState Ev :=
  match st.pendingNewSession with
  | some p =>
    { st with session := some p, pendingNewSession := none,
              selectedIndex := 0, events := [] }
  | none => st

/-- `ignoreNewSession`: clear only the pending candidate. -/
def ignoreNewSession {Ev : Type} (st : AppState Ev) : AppState Ev :=
  { st with pendingNewSession := none }

/-- The session-initialization step of `App` for the auto-discovery path:
a discovered latest session becomes current, otherwise an error banner is
set. -/
def initFromDiscovery {Ev : Type} (st : AppState Ev)
    (latest : Option Session) : AppState Ev :=
  match latest with
  | some s => { st with session := some s }
  | none =>
    { st with error := some "No active Claude Code sessions found" }

/-- C8: the session-switch state machine.  With no current session, a
discovered or watched session becomes current automatically; a watch
callback reporting a different session id makes the candidate pending while
leaving the current session and its accumulated events unchanged; `switch`
makes the pending session current, clears all accumulated events and the
pending candidate; `ignore` clears only the pending candidate, leaving the
current session and its events unchanged. -/
theorem claim8_session_switch {Ev : Type} (st : AppState Ev) (ns : Session) :
    (st.session = none →
      (watchUpdate st ns).session = some ns ∧
      (watchUpdate st ns).events = st.events ∧
      (watchUpdate st ns).pendingNewSession = st.pendingNewSession) ∧
    (st.session = none → ∀ s : Session,
      (initFromDiscovery st (some s)).session = some s) ∧
    (∀ cur, st.session = some cur → cur.sessionId ≠ ns.sessionId →
      (watchUpdate st ns).pendingNewSession = some ns ∧
      (watchUpdate st ns).session = st.session ∧
      (watchUpdate st ns).events = st.events) ∧
    (∀ p, st.pendingNewSession = some p →
      (switchToNewSession st).session = some p ∧
      (switchToNewSession st).events = [] ∧
      (switchToNewSession st).pendingNewSession = none) ∧
    ((ignoreNewSession st).pendingNewSession = none ∧
      (ignoreNewSession st).session = st.session ∧
      (ignoreNewSession st).events = st.events) := by
  refine ⟨?_, ?_, ?_, ?_, ?_⟩
  · intro h
    simp [watchUpdate, h]
  · intro _ s
    simp [initFromDiscovery]
  · intro cur hcur hne
    simp [watchUpdate, hcur, hne]
  · intro p hp
    simp [switchToNewSession, hp]
  · simp [ignoreNewSession]

/-- A concrete session record for the C8 witness. -/
def sessionA : Session :=
  { sessionId := "a", logPath := "/logs/a.jsonl",
    metadata := none, isActive := true }

/-- A second concrete session record for the C8 witness. -/
def sessionB : Session :=
  { sessionId := "b", logPath := "/logs/b.jsonl",
    metadata := none, isActive := true }

/-- A concrete single-session app state with accumulated events, for the C8
witness. -/
def stateA : AppState Nat :=
  { session := some sessionA, pendingNewSession := none,
    events := [1, 2, 3], error := none, selectedIndex := 0 }

/-- Witness for C8: from a state streaming session `a` with three events, a
watch callback for session `b` leaves the stream intact and marks `b`
pending. -/
theorem claim8_session_switch_witness :
    (watchUpdate stateA sessionB).pendingNewSession = some sessionB ∧
    (watchUpdate stateA sessionB).session = stateA.session ∧
    (watchUpdate stateA sessionB).events = stateA.events :=
  (claim8_session_switch stateA sessionB).2.2.1 sessionA rfl (by decide)

end ClaudeCompanion
